import Mathlib

/-!
Verification of the voice-server repository's call-session bridge and
scheduling engine, as implemented in `src/handlers/voice-handler.js`.

Modelling conventions (shallow embedding):
- Timestamps are natural numbers counting milliseconds on a single timeline
  (the JavaScript `Date.getTime()` value); a calendar day is the quotient by
  86400000 and `wday` reproduces `Date.getDay()` (day 0 of the timeline is a
  Thursday, as for the Unix epoch).
- The Prisma calendar store is passed explicitly as a `List CalEvent`; the
  `findMany` day-window query of `checkAvailability` / `getNextAvailableSlot`
  becomes the pure filter `findDayEvents`, and the query ranges issued are
  returned as an explicit trace so that "the store was not queried" is
  observable.
- JavaScript truthiness of optional string arguments (`!agencyId`, `!date`,
  `streamSid && ...`) is `truthyStr : Option String → Bool` (absent or empty
  strings are falsy).
- `new Date(dateStr)` generic parsing (host dependent) is an oracle parameter
  `iso : String → Option Nat`; the literal branches of `parseNaturalDate`
  (`today`, `tomorrow`, the `next\s+(\w+)` regex) are modelled exactly.
- Locale formatting of returned times (`toLocaleTimeString`) is dropped: slot
  lists hold the underlying start timestamps, whose order and values the
  formatted strings are functions of; fixed message strings are kept verbatim
  and interpolated ones are abbreviated to distinguishing constants.
- A storage exception thrown inside a dispatched tool function (the event the
  `try/catch` of `executeFunctionCall` guards against) is injected through a
  `fault : Option String` parameter.
-/

/-! ## Time arithmetic -/

def msPerMin : Nat := 60000

def msPerHour : Nat := 3600000

def msPerDay : Nat := 86400000

/-- Day-of-week of a day index, matching JavaScript `Date.getDay` with
0 = Sunday; day 0 of the timeline (the Unix epoch) is a Thursday. -/
def wday (day : Nat) : Nat := (day + 4) % 7

/-- `startOfDay` from voice-handler.js: midnight (00:00:00.000) of a day. -/
def startOfDay (day : Nat) : Nat := day * msPerDay

/-- `endOfDay` from voice-handler.js: 23:59:59.999 of a day. -/
def endOfDay (day : Nat) : Nat := day * msPerDay + (msPerDay - 1)

/-! ## Data model -/

/-- A persisted `calendarEvent` row (the fields the handler reads). -/
structure CalEvent where
  id : Nat
  agencyId : String
  title : String
  startTime : Nat
  endTime : Nat
  status : String
  notes : Option String
deriving DecidableEq

/-- The single JSON argument object the AI passes to every tool
(`check_availability`, `book_appointment`, `get_next_available_slot`);
each tool reads the fields it needs.  `dateTime` is the already-parsed
timestamp of the ISO datetime string. -/
structure Args where
  date : Option String := none
  duration : Option Nat := none
  daysToSearch : Option Nat := none
  dateTime : Option Nat := none
  title : Option String := none
  notes : Option String := none
deriving DecidableEq

/-- JavaScript truthiness of an optional string value. -/
def truthyStr : Option String → Bool
  | none => false
  | some s => s != ""

/-! ## parseNaturalDate -/

def dayNames : List String :=
  ["sunday", "monday", "tuesday", "wednesday", "thursday", "friday", "saturday"]

/-- Regex word character class `\w`. -/
def isWordChar (c : Char) : Bool := c.isAlphanum || c == '_'

/-- Try to match the regex `next\s+(\w+)` anchored at the head of the list,
returning the captured word. -/
def tryNextAt : List Char → Option (List Char)
  | 'n' :: 'e' :: 'x' :: 't' :: c :: rest =>
    if c.isWhitespace then
      let word := ((c :: rest).dropWhile Char.isWhitespace).takeWhile isWordChar
      if word.isEmpty then none else some word
    else none
  | _ => none

/-- Search semantics of the unanchored regex `next\s+(\w+)`: first position
where it matches, with its capture.  (`\s` and `\w` are disjoint classes, so
maximal munch is complete and no further backtracking exists.) -/
def matchNextWord : List Char → Option (List Char)
  | [] => none
  | c :: rest =>
    match tryNextAt (c :: rest) with
    | some w => some w
    | none => matchNextWord rest

/-- `dateStr.toLowerCase().trim()` as a character list (structurally
recursive so that the kernel can evaluate it). -/
def lowerTrim (s : String) : List Char :=
  (((s.data.map Char.toLower).dropWhile Char.isWhitespace).reverse.dropWhile
    Char.isWhitespace).reverse

/-- `parseNaturalDate` from voice-handler.js, returning the resolved day
index.  `today` is the current day, `iso` is the generic `new Date(dateStr)`
parse oracle used by the final fallback branch. -/
def parseNaturalDate (today : Nat) (iso : String → Option Nat) (dateStr : String) : Nat :=
  let lowered := lowerTrim dateStr
  if lowered = ("today" : String).data then today
  else if lowered = ("tomorrow" : String).data then today + 1
  else
    let fromNext : Option Nat :=
      match matchNextWord lowered with
      | some w =>
        let targetDay := dayNames.findIdx (fun d => d.data == w)
        if targetDay < 7 then
          let currentDay := wday today
          let daysUntil : Int := (targetDay : Int) - (currentDay : Int)
          let daysUntil := if daysUntil ≤ 0 then daysUntil + 7 else daysUntil
          some (today + daysUntil.toNat)
        else none
      | none => none
    match fromNext with
    | some d => d
    | none =>
      match iso dateStr with
      | some d => d
      | none => today

/-! ## Slot generation -/

/-- The minutes-past-midnight offsets enumerated by the double loop
`for hour in 9..<17, for minute in {0, 30}` of `generateAvailableSlots`. -/
def slotOffsets : List Nat :=
  (List.range 8).flatMap fun i => [0, 30].map fun m => (9 + i) * 60 + m

/-- `generateAvailableSlots` from voice-handler.js: candidate 30-minute-grid
starts between 09:00 and 16:30 of `day`, keeping those whose interval of
`duration` minutes does not overlap any given event
(`slotStart < eventEnd && slotEnd > eventStart`). -/
def generateAvailableSlots (day : Nat) (events : List CalEvent) (duration : Nat) : List Nat :=
  (slotOffsets.map fun o => startOfDay day + o * msPerMin).filter fun slotStart =>
    ! events.any fun e =>
      decide (slotStart < e.endTime) && decide (slotStart + duration * msPerMin > e.startTime)

/-- The `prisma.calendarEvent.findMany` day-window query shared by
`checkAvailability` and `getNextAvailableSlot`: events of the agency whose
interval meets the day (`startTime < endOfDay`, `endTime > startOfDay`) and
whose status is not `cancelled`. -/
def findDayEvents (db : List CalEvent) (agencyId : String) (day : Nat) : List CalEvent :=
  db.filter fun e =>
    e.agencyId == agencyId &&
    decide (e.startTime < endOfDay day) &&
    decide (e.endTime > startOfDay day) &&
    e.status != "cancelled"

/-! ## checkAvailability -/

structure CheckResult where
  success : Bool
  date : Option Nat
  availableSlots : List Nat
  message : String
deriving DecidableEq

/-- `checkAvailability` from voice-handler.js.  Also returns the list of
day-window ranges it queried from the calendar store, so that the guard
paths' not-querying is observable. -/
def checkAvailability (db : List CalEvent) (today : Nat) (iso : String → Option Nat)
    (agencyId : Option String) (args : Args) : CheckResult × List (Nat × Nat) :=
  if truthyStr agencyId = false then
    ({ success := false, date := none, availableSlots := [],
       message := "Unable to check availability. Please try again." }, [])
  else if truthyStr args.date = false then
    ({ success := false, date := none, availableSlots := [],
       message := "Please specify a date to check availability." }, [])
  else
    let duration := args.duration.getD 30
    let targetDay := parseNaturalDate today iso (args.date.getD "")
    let events := findDayEvents db (agencyId.getD "") targetDay
    let slots := generateAvailableSlots targetDay events duration
    ({ success := true, date := some targetDay, availableSlots := slots,
       message := if slots.length > 0 then "Available times" else "No availability on that date" },
     [(startOfDay targetDay, endOfDay targetDay)])

/-! ## bookAppointment -/

structure BookResult where
  success : Bool
  eventId : Nat
  dateTime : Nat
  message : String
deriving DecidableEq

/-- `bookAppointment` from voice-handler.js: creates the calendar event with
no availability check and returns a success payload.  The store's id
assignment is modelled as the next position; `conversationId` only lands in
the (unmodelled) metadata blob. -/
def bookAppointment (db : List CalEvent) (agencyId : String) (_conversationId : Option Nat)
    (args : Args) : List CalEvent × BookResult :=
  let startTime := args.dateTime.getD 0
  let duration := args.duration.getD 30
  let endTime := startTime + duration * msPerMin
  let ev : CalEvent :=
    { id := db.length, agencyId := agencyId, title := args.title.getD "Phone Appointment",
      startTime := startTime, endTime := endTime, status := "scheduled", notes := args.notes }
  (db ++ [ev],
   { success := true, eventId := ev.id, dateTime := startTime, message := "Appointment booked" })

/-! ## getNextAvailableSlot -/

structure NextResult where
  success : Bool
  nextAvailable : Option Nat
  otherSlots : List Nat
  message : String
deriving DecidableEq

/-- The today-only filter of `getNextAvailableSlot`: keep a slot when its
(hour, minute) pair is lexicographically after the current time's
(`getHours()`, `getMinutes()`). -/
def filterPastSlots (now : Nat) (slots : List Nat) : List Nat :=
  slots.filter fun s =>
    decide (s % msPerDay / msPerHour > now % msPerDay / msPerHour ∨
      (s % msPerDay / msPerHour = now % msPerDay / msPerHour ∧
       s % msPerHour / msPerMin > now % msPerHour / msPerMin))

/-- The day-scanning loop of `getNextAvailableSlot`: starting at `dayOffset`
with `fuel` days left, skip weekends, query the day's events, generate slots
(filtering past ones on the current day), and stop at the first day with a
slot, returning `(slots[0], slots.slice(1, 4))`. -/
def searchFrom (db : List CalEvent) (agencyId : String) (now duration : Nat) :
    Nat → Nat → Option (Nat × List Nat)
  | _, 0 => none
  | dayOffset, fuel + 1 =>
    let day := now / msPerDay + dayOffset
    if wday day = 0 ∨ wday day = 6 then
      searchFrom db agencyId now duration (dayOffset + 1) fuel
    else
      let events := findDayEvents db agencyId day
      let slots0 := generateAvailableSlots day events duration
      let slots := if dayOffset = 0 then filterPastSlots now slots0 else slots0
      match slots with
      | [] => searchFrom db agencyId now duration (dayOffset + 1) fuel
      | s :: rest => some (s, rest.take 3)

/-- The slot list the loop body of `getNextAvailableSlot` computes for one
`dayOffset` (empty for skipped weekend days). -/
def daySlots (db : List CalEvent) (agencyId : String) (now duration dayOffset : Nat) : List Nat :=
  let day := now / msPerDay + dayOffset
  if wday day = 0 ∨ wday day = 6 then []
  else
    let slots0 := generateAvailableSlots day (findDayEvents db agencyId day) duration
    if dayOffset = 0 then filterPastSlots now slots0 else slots0

/-- `getNextAvailableSlot` from voice-handler.js. -/
def getNextAvailableSlot (db : List CalEvent) (now : Nat) (agencyId : Option String)
    (args : Args) : NextResult :=
  if truthyStr agencyId = false then
    { success := false, nextAvailable := none, otherSlots := [],
      message := "Unable to check availability." }
  else
    let duration := args.duration.getD 30
    let maxDays := Nat.min (args.daysToSearch.getD 7) 30
    match searchFrom db (agencyId.getD "") now duration 0 maxDays with
    | some (s, others) =>
      { success := true, nextAvailable := some s, otherSlots := others,
        message := "Next available" }
    | none =>
      { success := false, nextAvailable := none, otherSlots := [],
        message := "No availability in the search range" }

/-! ## executeFunctionCall -/

/-- The result object `executeFunctionCall` serialises into the
function-call output: one variant per dispatched tool, plus the
`{ error: 'Unknown function' }` default and the
`{ success: false, message: 'An error occurred...' }` catch-all. -/
inductive ToolOutput where
  | check (r : CheckResult)
  | book (r : BookResult)
  | next (r : NextResult)
  | unknownFunction
  | caughtFailure
deriving DecidableEq

/-- Messages `executeFunctionCall` sends on the AI-leg WebSocket. -/
inductive AiOutMsg where
  | functionCallOutput (callId : String) (output : ToolOutput)
  | responseCreate
deriving DecidableEq

/-- `executeFunctionCall` from voice-handler.js.  `fault` injects a storage
exception inside the dispatched tool (the case the `try/catch` guards);
the unknown-function default touches no storage and cannot fault.  Returns
the updated store and the messages sent to the AI leg, in order. -/
def executeFunctionCall (db : List CalEvent) (now : Nat) (iso : String → Option Nat)
    (fault : Option String) (agencyId : Option String) (conversationId : Option Nat)
    (functionName callId : String) (args : Args) : List CalEvent × List AiOutMsg :=
  let attempt : Except String (ToolOutput × List CalEvent) :=
    if functionName = "check_availability" then
      match fault with
      | some e => Except.error e
      | none =>
        Except.ok (ToolOutput.check (checkAvailability db (now / msPerDay) iso agencyId args).1, db)
    else if functionName = "book_appointment" then
      match fault with
      | some e => Except.error e
      | none =>
        let res := bookAppointment db (agencyId.getD "") conversationId args
        Except.ok (ToolOutput.book res.2, res.1)
    else if functionName = "get_next_available_slot" then
      match fault with
      | some e => Except.error e
      | none => Except.ok (ToolOutput.next (getNextAvailableSlot db now agencyId args), db)
    else
      Except.ok (ToolOutput.unknownFunction, db)
  match attempt with
  | Except.ok (r, db2) => (db2, [AiOutMsg.functionCallOutput callId r, AiOutMsg.responseCreate])
  | Except.error _ =>
    (db, [AiOutMsg.functionCallOutput callId ToolOutput.caughtFailure, AiOutMsg.responseCreate])

/-! ## Call Session Bridge handler steps -/

/-- Per-call connection state of `handleVoiceStream`: whether the caller-leg
socket is open, the AI-leg socket (`none` before any connection is created,
`some b` once created with `b` = still open), the conversation record id, and
whether that record has been marked completed. -/
structure SessionState where
  twilioOpen : Bool
  openaiWs : Option Bool
  conversationId : Option Nat
  convCompleted : Bool
deriving DecidableEq

/-- `if (openaiWs) openaiWs.close()`. -/
def closeWs : Option Bool → Option Bool
  | none => none
  | some _ => some false

/-- The `start` event handler up to its branch on the agent lookup: when no
active agent is bound to the called number the caller leg is closed and the
handler returns; otherwise a conversation record is created and the AI-leg
connection is opened. -/
def onStart (agent : Option Nat) (freshConversationId : Nat) (s : SessionState) : SessionState :=
  match agent with
  | none => { s with twilioOpen := false }
  | some _ => { s with conversationId := some freshConversationId, openaiWs := some true }

/-- The `twilioWs.on('close')` handler (the caller-leg socket is now closed):
best-effort completion of the conversation record, then close the AI leg. -/
def onTwilioClose (s : SessionState) : SessionState :=
  { s with twilioOpen := false,
           convCompleted := s.convCompleted || s.conversationId.isSome,
           openaiWs := closeWs s.openaiWs }

/-- The caller-leg `stop` event handler: when a conversation record exists,
`await prisma.conversation.update(...)` runs with no `.catch` — if that
update throws (`updateFault` injects such a storage throw), the message
handler's outer catch takes over and the subsequent `openaiWs.close()` is
skipped; otherwise the record is completed and the AI leg is closed.  The
caller-leg socket itself is not closed here. -/
def onStop (updateFault : Bool) (s : SessionState) : SessionState :=
  if s.conversationId.isSome && updateFault then s
  else
    { s with convCompleted := s.convCompleted || s.conversationId.isSome,
             openaiWs := closeWs s.openaiWs }

/-- The `openaiWs.on('close')` handler: the AI-leg socket is now closed; the
handler body only logs — in particular it does not touch the caller leg. -/
def onOpenaiClose (s : SessionState) : SessionState :=
  { s with openaiWs := closeWs s.openaiWs }

/-- The `openaiWs.on('error')` handler: logs only; no state change. -/
def onOpenaiError (s : SessionState) : SessionState := s

/-! ## AI audio-delta relay -/

/-- A `media` frame sent to the caller leg. -/
inductive TwilioOutMsg where
  | media (streamSid : String) (payload : String)
deriving DecidableEq

/-- The `response.audio.delta` branch of the OpenAI message handler:
`if (response.delta) { if (streamSid && twilioWs.readyState === 1) send }`.
`twilioReadyState` is the ws readyState (1 = OPEN). -/
def onAudioDelta (streamSid : Option String) (twilioReadyState : Nat)
    (delta : Option String) : List TwilioOutMsg :=
  if truthyStr delta then
    if truthyStr streamSid && (twilioReadyState == 1) then
      [TwilioOutMsg.media (streamSid.getD "") (delta.getD "")]
    else []
  else []

/-! ## Helper lemmas -/

/-- Every slot produced by `generateAvailableSlots` is one of the sixteen
30-minute-grid starts of the day and overlaps none of the given events. -/
theorem mem_generateAvailableSlots {day duration s : Nat} {events : List CalEvent}
    (h : s ∈ generateAvailableSlots day events duration) :
    (∃ k < 16, s = startOfDay day + (540 + 30 * k) * msPerMin) ∧
    ∀ e ∈ events, ¬(s < e.endTime ∧ s + duration * msPerMin > e.startTime) := by
  have hOff : slotOffsets = (List.range 16).map fun k => 540 + 30 * k := by decide
  rw [generateAvailableSlots, List.mem_filter] at h
  obtain ⟨hmem, hpred⟩ := h
  constructor
  · rw [hOff, List.map_map, List.mem_map] at hmem
    obtain ⟨k, hk, rfl⟩ := hmem
    exact ⟨k, by simpa using hk, rfl⟩
  · intro e he hover
    simp only [Bool.not_eq_true', List.any_eq_false, Bool.and_eq_true, decide_eq_true_eq,
      not_and] at hpred
    exact absurd hover.2 (hpred e he hover.1)

/-- The slot list of `generateAvailableSlots` is strictly increasing. -/
theorem pairwise_generateAvailableSlots (day duration : Nat) (events : List CalEvent) :
    List.Pairwise (· < ·) (generateAvailableSlots day events duration) := by
  have hp : List.Pairwise (· < ·) slotOffsets := by decide
  exact List.Pairwise.filter _ (hp.map _ fun a b hab => by
    have h60 : (0:Nat) < msPerMin := by decide
    have := Nat.mul_lt_mul_of_lt_of_le hab (Nat.le_refl msPerMin) h60
    omega)

/-- `parseNaturalDate` on the literal `tomorrow`. -/
theorem parseNaturalDate_tomorrow (today : Nat) (iso : String → Option Nat) :
    parseNaturalDate today iso "tomorrow" = today + 1 := by
  have h1 : lowerTrim "tomorrow" = ("tomorrow" : String).data := by decide
  simp [parseNaturalDate, h1]

/-- Generic evaluation of the `next <weekday>` branch of `parseNaturalDate`:
when the lowered input matches the regex with a capture that is the `k`-th
day name, the result is the unique day after `today` and within seven days
whose weekday is `k`. -/
theorem parseNaturalDate_next_of (today : Nat) (iso : String → Option Nat) (s : String)
    (w : List Char) (k : Nat)
    (h1 : ¬ lowerTrim s = ("today" : String).data)
    (h2 : ¬ lowerTrim s = ("tomorrow" : String).data)
    (h3 : matchNextWord (lowerTrim s) = some w)
    (h4 : dayNames.findIdx (fun d => d.data == w) = k)
    (hk : k < 7) :
    wday (parseNaturalDate today iso s) = k ∧
    today < parseNaturalDate today iso s ∧
    parseNaturalDate today iso s ≤ today + 7 ∧
    (wday today = 3 → k = 1 → parseNaturalDate today iso s = today + 5) := by
  simp only [parseNaturalDate, h3, h4]
  rw [if_neg h1, if_neg h2, if_pos hk]
  simp only [wday]
  refine ⟨?_, ?_, ?_, ?_⟩ <;> split_ifs with h <;> omega

/-- One unrolling of the scan loop of `getNextAvailableSlot` in terms of the
per-day slot list. -/
theorem searchFrom_succ (db : List CalEvent) (a : String) (now dur k fuel : Nat) :
    searchFrom db a now dur k (fuel + 1) =
      match daySlots db a now dur k with
      | [] => searchFrom db a now dur (k + 1) fuel
      | s :: rest => some (s, rest.take 3) := by
  rw [searchFrom, daySlots]
  split_ifs with hw <;> dsimp only

/-- The scan fails exactly when every day it covers has an empty slot
list. -/
theorem searchFrom_none_iff (db : List CalEvent) (a : String) (now dur : Nat) :
    ∀ fuel k, searchFrom db a now dur k fuel = none ↔
      ∀ j < fuel, daySlots db a now dur (k + j) = [] := by
  intro fuel
  induction fuel with
  | zero => intro k; simp [searchFrom]
  | succ n ih =>
    intro k
    rw [searchFrom_succ]
    cases hd : daySlots db a now dur k with
    | nil =>
      simp only [ih (k + 1)]
      constructor
      · intro h j hj
        cases j with
        | zero => simpa using hd
        | succ i =>
          have := h i (by omega)
          simpa [Nat.add_assoc, Nat.add_comm 1 i] using this
      · intro h j hj
        have := h (j + 1) (by omega)
        simpa [Nat.add_assoc, Nat.add_comm 1 j] using this
    | cons s rest =>
      simp only [reduceCtorEq, false_iff, not_forall]
      refine ⟨0, by omega, by simp [hd]⟩

/-- A successful scan returns the head of the first day with a non-empty
slot list, plus up to three subsequent slots of that same day. -/
theorem searchFrom_some_spec (db : List CalEvent) (a : String) (now dur : Nat) :
    ∀ fuel k s o, searchFrom db a now dur k fuel = some (s, o) →
      ∃ j < fuel, (∀ i < j, daySlots db a now dur (k + i) = []) ∧
        ∃ rest, daySlots db a now dur (k + j) = s :: rest ∧ o = rest.take 3 := by
  intro fuel
  induction fuel with
  | zero => intro k s o h; simp [searchFrom] at h
  | succ n ih =>
    intro k s o h
    rw [searchFrom_succ] at h
    cases hd : daySlots db a now dur k with
    | nil =>
      rw [hd] at h
      obtain ⟨j, hj, hprev, rest, hds, ho⟩ := ih (k + 1) s o h
      refine ⟨j + 1, by omega, ?_, rest, ?_, ho⟩
      · intro i hi
        cases i with
        | zero => simpa using hd
        | succ m =>
          have := hprev m (by omega)
          simpa [Nat.add_assoc, Nat.add_comm 1 m] using this
      · simpa [Nat.add_assoc, Nat.add_comm 1 j] using hds
    | cons s0 rest0 =>
      rw [hd] at h
      simp only [Option.some.injEq, Prod.mk.injEq] at h
      exact ⟨0, by omega, by omega, rest0, by simpa [h.1] using hd, h.2.symm⟩

/-- Any member of a day's slot list lies on a non-weekend day inside the
horizon, belongs to that day, and starts strictly after `now`. -/
theorem mem_daySlots {db : List CalEvent} {a : String} {now dur j s : Nat}
    (h : s ∈ daySlots db a now dur j) :
    wday (now / msPerDay + j) ≠ 0 ∧ wday (now / msPerDay + j) ≠ 6 ∧
    s / msPerDay = now / msPerDay + j ∧ now < s := by
  rw [daySlots] at h
  split_ifs at h with hw hj
  · simp at h
  · subst hj
    rw [filterPastSlots, List.mem_filter] at h
    obtain ⟨hmem, hpred⟩ := h
    obtain ⟨⟨k, hk, rfl⟩, -⟩ := mem_generateAvailableSlots hmem
    have hp := of_decide_eq_true hpred
    push_neg at hw
    refine ⟨hw.1, hw.2, ?_, ?_⟩ <;>
      simp only [startOfDay, msPerDay, msPerMin, msPerHour] at * <;> omega
  · obtain ⟨⟨k, hk, rfl⟩, -⟩ := mem_generateAvailableSlots h
    push_neg at hw
    refine ⟨hw.1, hw.2, ?_, ?_⟩ <;>
      simp only [startOfDay, msPerDay, msPerMin, msPerHour] at * <;> omega

/-! ## Claim theorems -/

/-- C1 (counterexample): the claim asserts that when the AI-leg WebSocket
closes, the bridge closes the caller-leg WebSocket.  In the session state
with both legs open, running the AI-leg close handler leaves the caller leg
open (the handler only logs), refuting the claim at this concrete input;
likewise the error handler changes nothing. -/
theorem c1_counterexample :
    (onOpenaiClose (SessionState.mk true (some true) (some 1) false)).twilioOpen = true ∧
    onOpenaiError (SessionState.mk true (some true) (some 1) false) =
      SessionState.mk true (some true) (some 1) false :=
  ⟨rfl, rfl⟩

/-- C1 (amended): the caller-leg close handler (whose conversation update
carries a `.catch`) always leaves the AI-leg WebSocket closed when one
exists, and the `stop` event does so when the conversation-record update
does not throw; but when that un-caught update throws with a conversation
record open, the stop handler skips the AI-leg close entirely (the state is
unchanged), and when the AI leg closes or errors, the handlers do not close
the caller leg, whose open/closed state is unchanged. -/
theorem c1_teardown_asymmetry (s : SessionState) :
    ((onTwilioClose s).openaiWs = none ∨ (onTwilioClose s).openaiWs = some false) ∧
    (onTwilioClose s).twilioOpen = false ∧
    ((onStop false s).openaiWs = none ∨ (onStop false s).openaiWs = some false) ∧
    (onStop true s).openaiWs =
      (if s.conversationId.isSome then s.openaiWs else closeWs s.openaiWs) ∧
    (onOpenaiClose s).twilioOpen = s.twilioOpen ∧
    (onOpenaiError s).twilioOpen = s.twilioOpen := by
  refine ⟨?_, rfl, ?_, ?_, rfl, rfl⟩
  · cases h : s.openaiWs <;> simp [onTwilioClose, closeWs, h]
  · cases h : s.openaiWs <;> simp [onStop, closeWs, h]
  · cases hc : s.conversationId <;> simp [onStop, hc]

/-- C2 (counterexample): the claim requires every returned slot, including
its end, to lie within the 09:00–17:00 window for every duration.  With
duration 60 and no events, `checkAvailability` on `today` returns the 16:30
slot (59400000 ms), whose end 17:30 exceeds the 17:00 boundary
(`startOfDay 0 + 1020 * msPerMin`). -/
theorem c2_counterexample :
    59400000 ∈ (checkAvailability [] 0 (fun _ => none) (some "agency")
        { date := some "today", duration := some 60 }).1.availableSlots ∧
    ¬(59400000 + 60 * msPerMin ≤ startOfDay 0 + 1020 * msPerMin) := by decide

/-- C2 (amended): for truthy agencyId and date, `checkAvailability` succeeds
and every returned slot starts on one of the sixteen 30-minute boundaries
from 09:00 to 16:30, the slot list is strictly increasing (chronological),
the slot interval stays within the 17:00 window end only when the requested
duration is at most 30 minutes, and no slot overlaps (under
`slotStart < eventEnd ∧ slotEnd > eventStart`) any non-cancelled event of
that agency meeting that date. -/
theorem c2_checkAvailability_slots (db : List CalEvent) (today : Nat)
    (iso : String → Option Nat) (agencyId : Option String) (args : Args)
    (ha : truthyStr agencyId = true) (hd : truthyStr args.date = true) :
    (checkAvailability db today iso agencyId args).1.success = true ∧
    (checkAvailability db today iso agencyId args).1.date =
      some (parseNaturalDate today iso (args.date.getD "")) ∧
    List.Pairwise (· < ·) (checkAvailability db today iso agencyId args).1.availableSlots ∧
    ∀ s ∈ (checkAvailability db today iso agencyId args).1.availableSlots,
      (∃ k < 16, s = startOfDay (parseNaturalDate today iso (args.date.getD "")) +
        (540 + 30 * k) * msPerMin) ∧
      (args.duration.getD 30 ≤ 30 →
        s + (args.duration.getD 30) * msPerMin ≤
          startOfDay (parseNaturalDate today iso (args.date.getD "")) + 1020 * msPerMin) ∧
      ∀ e ∈ db, e.agencyId = agencyId.getD "" → e.status ≠ "cancelled" →
        e.startTime < endOfDay (parseNaturalDate today iso (args.date.getD "")) →
        e.endTime > startOfDay (parseNaturalDate today iso (args.date.getD "")) →
        ¬(s < e.endTime ∧
          s + (args.duration.getD 30) * msPerMin > e.startTime) := by
  have hca : ¬ truthyStr agencyId = false := by simp [ha]
  have hcd : ¬ truthyStr args.date = false := by simp [hd]
  rw [checkAvailability, if_neg hca, if_neg hcd]
  dsimp only
  refine ⟨rfl, rfl, pairwise_generateAvailableSlots _ _ _, ?_⟩
  intro s hs
  obtain ⟨hk, hno⟩ := mem_generateAvailableSlots hs
  refine ⟨hk, ?_, ?_⟩
  · obtain ⟨k, hk16, rfl⟩ := hk
    intro hdur
    simp only [startOfDay, msPerMin] at *
    omega
  · intro e he hag hst hlt hgt hover
    refine hno e ?_ hover
    rw [findDayEvents, List.mem_filter]
    refine ⟨he, ?_⟩
    simp only [Bool.and_eq_true, beq_iff_eq, decide_eq_true_eq, bne_iff_ne]
    exact ⟨⟨⟨hag, hlt⟩, hgt⟩, hst⟩

/-- C2 (witness): the amended theorem applied at a concrete input. -/
theorem c2_checkAvailability_slots_witness :
    truthyStr (some "agency") = true ∧
    truthyStr (({ date := some "today", duration := some 30 } : Args).date) = true ∧
    ((checkAvailability [] 0 (fun _ => none) (some "agency")
        { date := some "today", duration := some 30 }).1.success = true ∧
      (checkAvailability [] 0 (fun _ => none) (some "agency")
        { date := some "today", duration := some 30 }).1.date =
        some (parseNaturalDate 0 (fun _ => none)
          (({ date := some "today", duration := some 30 } : Args).date.getD "")) ∧
      List.Pairwise (· < ·) (checkAvailability [] 0 (fun _ => none) (some "agency")
        { date := some "today", duration := some 30 }).1.availableSlots ∧
      ∀ s ∈ (checkAvailability [] 0 (fun _ => none) (some "agency")
          { date := some "today", duration := some 30 }).1.availableSlots,
        (∃ k < 16, s = startOfDay (parseNaturalDate 0 (fun _ => none)
          (({ date := some "today", duration := some 30 } : Args).date.getD "")) +
          (540 + 30 * k) * msPerMin) ∧
        (({ date := some "today", duration := some 30 } : Args).duration.getD 30 ≤ 30 →
          s + (({ date := some "today", duration := some 30 } : Args).duration.getD 30) *
              msPerMin ≤
            startOfDay (parseNaturalDate 0 (fun _ => none)
              (({ date := some "today", duration := some 30 } : Args).date.getD "")) +
              1020 * msPerMin) ∧
        ∀ e ∈ ([] : List CalEvent), e.agencyId = (some "agency").getD "" →
          e.status ≠ "cancelled" →
          e.startTime < endOfDay (parseNaturalDate 0 (fun _ => none)
            (({ date := some "today", duration := some 30 } : Args).date.getD "")) →
          e.endTime > startOfDay (parseNaturalDate 0 (fun _ => none)
            (({ date := some "today", duration := some 30 } : Args).date.getD "")) →
          ¬(s < e.endTime ∧
            s + (({ date := some "today", duration := some 30 } : Args).duration.getD 30) *
              msPerMin > e.startTime)) :=
  ⟨by decide, by decide,
    c2_checkAvailability_slots [] 0 (fun _ => none) (some "agency")
      { date := some "today", duration := some 30 } (by decide) (by decide)⟩

/-- C3: for a truthy agencyId, `getNextAvailableSlot` (i) reports not-found
whenever every day offset below `min(daysToSearch, 30)` yields no slot,
(ii) returns a slot whenever some day offset inside that horizon has a
non-empty slot list, and (iii) any returned slot is the head of the per-day
slot list of the first day offset inside that horizon with a non-empty list
(hence the earliest slot of that day, weekends skipped and, on the current
day, slots not after the current time filtered out), with `otherSlots` the
next up-to-three same-day slots, the slot's day a non-weekend day inside
the horizon, and the slot's start strictly after `now`. -/
theorem c3_getNextAvailableSlot_spec (db : List CalEvent) (now : Nat)
    (agencyId : Option String) (args : Args) (ha : truthyStr agencyId = true) :
    ((∀ j < Nat.min (args.daysToSearch.getD 7) 30,
        daySlots db (agencyId.getD "") now (args.duration.getD 30) j = []) →
      (getNextAvailableSlot db now agencyId args).success = false ∧
      (getNextAvailableSlot db now agencyId args).nextAvailable = none) ∧
    ((∃ j, j < Nat.min (args.daysToSearch.getD 7) 30 ∧
        daySlots db (agencyId.getD "") now (args.duration.getD 30) j ≠ []) →
      (getNextAvailableSlot db now agencyId args).success = true ∧
      ∃ s, (getNextAvailableSlot db now agencyId args).nextAvailable = some s) ∧
    (∀ s, (getNextAvailableSlot db now agencyId args).nextAvailable = some s →
      (getNextAvailableSlot db now agencyId args).success = true ∧
      ∃ j < Nat.min (args.daysToSearch.getD 7) 30,
        (∀ i < j, daySlots db (agencyId.getD "") now (args.duration.getD 30) i = []) ∧
        (∃ rest, daySlots db (agencyId.getD "") now (args.duration.getD 30) j = s :: rest ∧
          (getNextAvailableSlot db now agencyId args).otherSlots = rest.take 3) ∧
        wday (now / msPerDay + j) ≠ 0 ∧ wday (now / msPerDay + j) ≠ 6 ∧
        s / msPerDay = now / msPerDay + j ∧ now < s) := by
  have hcond : ¬ truthyStr agencyId = false := by simp [ha]
  rw [getNextAvailableSlot, if_neg hcond]
  dsimp only
  cases hsr : searchFrom db (agencyId.getD "") now (args.duration.getD 30) 0
      (Nat.min (args.daysToSearch.getD 7) 30) with
  | none =>
    simp only [hsr]
    refine ⟨fun _ => ⟨trivial, trivial⟩, ?_, ?_⟩
    · rintro ⟨j, hj, hne⟩
      refine absurd ?_ hne
      have := (searchFrom_none_iff db (agencyId.getD "") now (args.duration.getD 30)
        (Nat.min (args.daysToSearch.getD 7) 30) 0).mp hsr j hj
      simpa using this
    · intro s hs; simp at hs
  | some p =>
    obtain ⟨s0, o⟩ := p
    simp only [hsr]
    refine ⟨?_, fun _ => ⟨trivial, s0, by simp⟩, ?_⟩
    · intro hall
      rw [(searchFrom_none_iff db (agencyId.getD "") now (args.duration.getD 30) _ 0).mpr
        (by simpa using hall)] at hsr
      exact absurd hsr (by simp)
    · intro s hs
      simp only [Option.some.injEq] at hs
      subst hs
      refine ⟨trivial, ?_⟩
      obtain ⟨j, hj, hprev, rest, hds, ho⟩ :=
        searchFrom_some_spec db (agencyId.getD "") now (args.duration.getD 30) _ 0 s0 o hsr
      have hmem : s0 ∈ daySlots db (agencyId.getD "") now (args.duration.getD 30) j := by
        rw [show (0 + j) = j from by omega] at hds
        rw [hds]; exact List.mem_cons_self _ _
      obtain ⟨hw0, hw6, hdiv, hnow⟩ := mem_daySlots hmem
      refine ⟨j, hj, ?_, ⟨rest, ?_, ho⟩, hw0, hw6, hdiv, hnow⟩
      · intro i hi
        have := hprev i hi
        simpa using this
      · rw [show (0 + j) = j from by omega] at hds
        exact hds

/-- C3 (witness): the theorem applied with an empty store at midnight of a
Thursday (day 0) and default arguments. -/
theorem c3_getNextAvailableSlot_spec_witness :
    truthyStr (some "agency") = true ∧
    (((∀ j < Nat.min ((({} : Args).daysToSearch).getD 7) 30,
        daySlots [] ((some "agency").getD "") 0 ((({} : Args).duration).getD 30) j = []) →
      (getNextAvailableSlot [] 0 (some "agency") {}).success = false ∧
      (getNextAvailableSlot [] 0 (some "agency") {}).nextAvailable = none) ∧
    ((∃ j, j < Nat.min ((({} : Args).daysToSearch).getD 7) 30 ∧
        daySlots [] ((some "agency").getD "") 0 ((({} : Args).duration).getD 30) j ≠ []) →
      (getNextAvailableSlot [] 0 (some "agency") {}).success = true ∧
      ∃ s, (getNextAvailableSlot [] 0 (some "agency") {}).nextAvailable = some s) ∧
    (∀ s, (getNextAvailableSlot [] 0 (some "agency") {}).nextAvailable = some s →
      (getNextAvailableSlot [] 0 (some "agency") {}).success = true ∧
      ∃ j < Nat.min ((({} : Args).daysToSearch).getD 7) 30,
        (∀ i < j, daySlots [] ((some "agency").getD "") 0 ((({} : Args).duration).getD 30)
          i = []) ∧
        (∃ rest, daySlots [] ((some "agency").getD "") 0 ((({} : Args).duration).getD 30)
            j = s :: rest ∧
          (getNextAvailableSlot [] 0 (some "agency") {}).otherSlots = rest.take 3) ∧
        wday (0 / msPerDay + j) ≠ 0 ∧ wday (0 / msPerDay + j) ≠ 6 ∧
        s / msPerDay = 0 / msPerDay + j ∧ 0 < s)) :=
  ⟨by decide, c3_getNextAvailableSlot_spec [] 0 (some "agency") {} (by decide)⟩

/-- C4: for every weekday name (the `k`-th entry of `dayNames`),
`parseNaturalDate` on `next <weekday>` resolves to the unique day strictly
after `today` and at most seven days ahead whose weekday is `k` — the
nearest future occurrence with today excluded (a full week ahead when today
is the named weekday) — and in particular on a Wednesday `next monday`
resolves to the Monday five days later. -/
theorem c4_parseNaturalDate_next_weekday (today : Nat) (iso : String → Option Nat)
    (k : Nat) (hk : k < 7) :
    wday (parseNaturalDate today iso ("next " ++ dayNames.getD k "")) = k ∧
    today < parseNaturalDate today iso ("next " ++ dayNames.getD k "") ∧
    parseNaturalDate today iso ("next " ++ dayNames.getD k "") ≤ today + 7 ∧
    (wday today = 3 → k = 1 →
      parseNaturalDate today iso ("next " ++ dayNames.getD k "") = today + 5) := by
  interval_cases k
  · exact parseNaturalDate_next_of today iso _ ("sunday" : String).data 0
      (by decide) (by decide) (by decide) (by decide) (by norm_num)
  · exact parseNaturalDate_next_of today iso _ ("monday" : String).data 1
      (by decide) (by decide) (by decide) (by decide) (by norm_num)
  · exact parseNaturalDate_next_of today iso _ ("tuesday" : String).data 2
      (by decide) (by decide) (by decide) (by decide) (by norm_num)
  · exact parseNaturalDate_next_of today iso _ ("wednesday" : String).data 3
      (by decide) (by decide) (by decide) (by decide) (by norm_num)
  · exact parseNaturalDate_next_of today iso _ ("thursday" : String).data 4
      (by decide) (by decide) (by decide) (by decide) (by norm_num)
  · exact parseNaturalDate_next_of today iso _ ("friday" : String).data 5
      (by decide) (by decide) (by decide) (by decide) (by norm_num)
  · exact parseNaturalDate_next_of today iso _ ("saturday" : String).data 6
      (by decide) (by decide) (by decide) (by decide) (by norm_num)

/-- C4 (witness): day 6 is a Wednesday (`wday 6 = 3`), and the theorem
instantiated there for `next monday` gives the Monday five days later. -/
theorem c4_parseNaturalDate_next_weekday_witness :
    1 < 7 ∧
    (wday (parseNaturalDate 6 (fun _ => none) ("next " ++ dayNames.getD 1 "")) = 1 ∧
    6 < parseNaturalDate 6 (fun _ => none) ("next " ++ dayNames.getD 1 "") ∧
    parseNaturalDate 6 (fun _ => none) ("next " ++ dayNames.getD 1 "") ≤ 6 + 7 ∧
    (wday 6 = 3 → 1 = 1 →
      parseNaturalDate 6 (fun _ => none) ("next " ++ dayNames.getD 1 "") = 6 + 5)) :=
  ⟨by norm_num, c4_parseNaturalDate_next_weekday 6 (fun _ => none) 1 (by norm_num)⟩

/-- C5: with a truthy agencyId, date `tomorrow`, duration 30 and no existing
events, `checkAvailability` succeeds with exactly the sixteen slots 09:00,
09:30, ..., 16:30 of tomorrow's date. -/
theorem c5_tomorrow_sixteen_slots (today : Nat) (iso : String → Option Nat)
    (agencyId : Option String) (h : truthyStr agencyId = true) :
    (checkAvailability [] today iso agencyId
        { date := some "tomorrow", duration := some 30 }).1 =
      { success := true, date := some (today + 1),
        availableSlots :=
          (List.range 16).map fun k => startOfDay (today + 1) + (540 + 30 * k) * msPerMin,
        message := "Available times" } := by
  have hOff : slotOffsets = (List.range 16).map fun k => 540 + 30 * k := by decide
  simp only [checkAvailability, h, parseNaturalDate_tomorrow]
  norm_num
  rw [if_neg (by decide)]
  simp only [parseNaturalDate_tomorrow, findDayEvents, generateAvailableSlots, hOff,
    List.map_map, List.filter_nil, List.any_nil]
  rfl

/-- C5 (witness): the theorem applied at day 0. -/
theorem c5_tomorrow_sixteen_slots_witness :
    truthyStr (some "agency") = true ∧
    (checkAvailability [] 0 (fun _ => none) (some "agency")
        { date := some "tomorrow", duration := some 30 }).1 =
      { success := true, date := some (0 + 1),
        availableSlots :=
          (List.range 16).map fun k => startOfDay (0 + 1) + (540 + 30 * k) * msPerMin,
        message := "Available times" } :=
  ⟨by decide, c5_tomorrow_sixteen_slots 0 (fun _ => none) (some "agency") (by decide)⟩

/-- C6: for every function-call event, `executeFunctionCall` sends exactly
one function-call-output (carrying the call id) immediately followed by
exactly one `response.create` to the AI leg; an unrecognized function name
yields the error output, and a storage exception inside a dispatched tool is
caught and reported as the structured failure output — the function is total,
so no tool invocation crashes the session. -/
theorem c6_executeFunctionCall_protocol (db : List CalEvent) (now : Nat)
    (iso : String → Option Nat) (fault : Option String) (agencyId : Option String)
    (conversationId : Option Nat) (functionName callId : String) (args : Args) :
    ∃ out : ToolOutput,
      (executeFunctionCall db now iso fault agencyId conversationId
          functionName callId args).2 =
        [AiOutMsg.functionCallOutput callId out, AiOutMsg.responseCreate] ∧
      (functionName ≠ "check_availability" → functionName ≠ "book_appointment" →
        functionName ≠ "get_next_available_slot" → out = ToolOutput.unknownFunction) ∧
      (∀ e, fault = some e →
        (functionName = "check_availability" ∨ functionName = "book_appointment" ∨
          functionName = "get_next_available_slot") → out = ToolOutput.caughtFailure) := by
  unfold executeFunctionCall
  by_cases h1 : functionName = "check_availability" <;>
    by_cases h2 : functionName = "book_appointment" <;>
      by_cases h3 : functionName = "get_next_available_slot" <;>
        cases fault <;>
          simp only [h1, h2, h3, if_pos, if_neg, if_true, if_false, ite_true, ite_false,
            reduceIte] <;>
          first
            | exact ⟨ToolOutput.caughtFailure, rfl, by simp_all, by simp_all⟩
            | exact ⟨ToolOutput.unknownFunction, rfl, by simp_all, by simp_all⟩
            | exact ⟨_, rfl, by simp_all, by simp_all⟩

/-- C6 (witness): the theorem applied to an unrecognized function name with
no fault. -/
theorem c6_executeFunctionCall_protocol_witness :
    ∃ out : ToolOutput,
      (executeFunctionCall [] 0 (fun _ => none) none (some "agency") none
          "frobnicate" "call7" {}).2 =
        [AiOutMsg.functionCallOutput "call7" out, AiOutMsg.responseCreate] ∧
      ("frobnicate" ≠ "check_availability" → "frobnicate" ≠ "book_appointment" →
        "frobnicate" ≠ "get_next_available_slot" → out = ToolOutput.unknownFunction) ∧
      (∀ e, (none : Option String) = some e →
        ("frobnicate" = "check_availability" ∨ "frobnicate" = "book_appointment" ∨
          "frobnicate" = "get_next_available_slot") → out = ToolOutput.caughtFailure) :=
  c6_executeFunctionCall_protocol [] 0 (fun _ => none) none (some "agency") none
    "frobnicate" "call7" {}

/-- C7: when the start event's agent lookup returns no active agent, the
handler closes the caller leg and returns: no AI-side connection is created
(the AI handle stays absent), no conversation-log record is opened (the
conversation id is unchanged), and the step is a total function, so nothing
is thrown. -/
theorem c7_onStart_no_agent (s : SessionState) (freshConversationId : Nat)
    (h : s.openaiWs = none) :
    (onStart none freshConversationId s).twilioOpen = false ∧
    (onStart none freshConversationId s).openaiWs = none ∧
    (onStart none freshConversationId s).conversationId = s.conversationId :=
  ⟨rfl, h, rfl⟩

/-- C7 (witness): the theorem applied to the pre-start session state. -/
theorem c7_onStart_no_agent_witness :
    (SessionState.mk true none none false).openaiWs = none ∧
    ((onStart none 5 (SessionState.mk true none none false)).twilioOpen = false ∧
    (onStart none 5 (SessionState.mk true none none false)).openaiWs = none ∧
    (onStart none 5 (SessionState.mk true none none false)).conversationId =
      (SessionState.mk true none none false).conversationId) :=
  ⟨rfl, c7_onStart_no_agent (SessionState.mk true none none false) 5 rfl⟩

/-- C8: an AI audio-delta arriving while the caller-leg socket is not open,
or before the stream identifier is known, sends nothing to the caller leg
(and the handler is total, so nothing is thrown); with the caller leg open
and the stream identifier known, the delta is forwarded as one media event
tagged with that stream identifier. -/
theorem c8_onAudioDelta_guarded (streamSid : Option String) (twilioReadyState : Nat)
    (delta : Option String) :
    ((twilioReadyState ≠ 1 ∨ truthyStr streamSid = false) →
      onAudioDelta streamSid twilioReadyState delta = []) ∧
    (∀ sid payload, streamSid = some sid → sid ≠ "" → twilioReadyState = 1 →
      delta = some payload → payload ≠ "" →
      onAudioDelta streamSid twilioReadyState delta = [TwilioOutMsg.media sid payload]) := by
  constructor
  · rintro (h | h) <;> simp only [onAudioDelta] <;>
      cases delta <;> simp_all [truthyStr]
  · rintro sid payload rfl hs rfl hd hp
    simp_all [onAudioDelta, truthyStr]

/-- C8 (witness): the theorem applied with a closed caller leg (readyState 0,
frame dropped) and with an open one (frame forwarded). -/
theorem c8_onAudioDelta_guarded_witness :
    onAudioDelta (some "MZ1") 0 (some "payload") = [] ∧
    onAudioDelta (some "MZ1") 1 (some "payload") = [TwilioOutMsg.media "MZ1" "payload"] :=
  ⟨(c8_onAudioDelta_guarded (some "MZ1") 0 (some "payload")).1 (Or.inl (by decide)),
    (c8_onAudioDelta_guarded (some "MZ1") 1 (some "payload")).2 "MZ1" "payload" rfl
      (by decide) rfl rfl (by decide)⟩

/-- C9: `bookAppointment` appends the event unconditionally — for every
store contents, including ones whose events overlap the requested interval,
the new event is created with start `dateTime`, end `dateTime + duration`
minutes and status `scheduled` — and returns a success result carrying the
new event's identifier and the confirmation message. -/
theorem c9_bookAppointment_unconditional (db : List CalEvent) (agencyId : String)
    (conversationId : Option Nat) (args : Args) :
    (bookAppointment db agencyId conversationId args).1 =
      db ++ [CalEvent.mk db.length agencyId (args.title.getD "Phone Appointment")
        (args.dateTime.getD 0) (args.dateTime.getD 0 + (args.duration.getD 30) * msPerMin)
        "scheduled" args.notes] ∧
    (bookAppointment db agencyId conversationId args).2 =
      { success := true, eventId := db.length, dateTime := args.dateTime.getD 0,
        message := "Appointment booked" } :=
  ⟨rfl, rfl⟩

/-- C10: a falsy agencyId or a missing/empty date makes `checkAvailability`
return a failure result (`success = false`) with one of the two
human-readable guard messages, and with an empty query trace — the calendar
store is not consulted; the function is total, so nothing is thrown. -/
theorem c10_checkAvailability_guards (db : List CalEvent) (today : Nat)
    (iso : String → Option Nat) (agencyId : Option String) (args : Args)
    (h : truthyStr agencyId = false ∨ truthyStr args.date = false) :
    (checkAvailability db today iso agencyId args).1.success = false ∧
    ((checkAvailability db today iso agencyId args).1.message =
        "Unable to check availability. Please try again." ∨
      (checkAvailability db today iso agencyId args).1.message =
        "Please specify a date to check availability.") ∧
    (checkAvailability db today iso agencyId args).2 = [] := by
  rcases h with h | h
  · simp [checkAvailability, h]
  · by_cases ha : truthyStr agencyId = false <;> simp [checkAvailability, h, ha]

/-- C10 (witness): the theorem applied with both arguments absent. -/
theorem c10_checkAvailability_guards_witness :
    (truthyStr none = false ∨ truthyStr (({} : Args).date) = false) ∧
    ((checkAvailability [] 0 (fun _ => none) none {}).1.success = false ∧
    ((checkAvailability [] 0 (fun _ => none) none {}).1.message =
        "Unable to check availability. Please try again." ∨
      (checkAvailability [] 0 (fun _ => none) none {}).1.message =
        "Please specify a date to check availability.") ∧
    (checkAvailability [] 0 (fun _ => none) none {}).2 = []) :=
  ⟨Or.inl rfl, c10_checkAvailability_guards [] 0 (fun _ => none) none {} (Or.inl rfl)⟩
